import Mathlib

/-
Verification of the ARCropolis override engine (TripleLJ/ARCropolis).

The development shallowly embeds `src/replacement_files.rs` (the
`ArcFiles` index built by scanning directory trees) and the two hooks of
`src/lib.rs` (`idk` and `add_idx_to_table1_and_table2`).

Modelling conventions:
- Paths are lists of characters (`Path := List Char`).  The source slices
  path strings by byte index (`[arc_dir_len + 1 ..]`); paths here are
  ASCII, where byte indices and character indices coincide.
- The external `hash40` function (from the `smash` crate, not part of
  this repository) is a parameter `h : Path → Nat` of every definition;
  the spec only requires it to be a deterministic 64-bit hash.
- `std::collections::HashMap<u64, PathBuf>` is modelled as an
  association list where `insert` prepends a binding and `get` returns
  the most recently inserted binding for a key; this is observationally
  the overwrite-on-insert semantics of `HashMap::insert`/`get`.
- Directory enumeration: on the target platform, `DirEntry::path()`
  yields the bare entry name, and the code rebuilds the full path with
  `format!("{}/{}", dir, filename)`; the model therefore stores bare
  entry names in the tree and joins them with `'/'`.
- An `io::Result` value is modelled as a `Bool` success flag paired with
  the map accumulated so far (the `HashMap` mutations performed before a
  failure persist, exactly as in the Rust code).
-/

namespace Arcropolis

/-- On-disk path or path fragment, as a list of (ASCII) characters. -/
abbrev Path := List Char

/- File-system tree for the scan model.  `file` is a regular file
(whose contents matter only to the interception layer), `dir` is a
readable directory with its enumeration-ordered entries, and `baddir` is
a directory for which `fs::read_dir` fails (permission error). -/
mutual
inductive FsTree : Type where
  | file : (contents : List Nat) → FsTree
  | baddir : FsTree
  | dir : (entries : FsEntries) → FsTree

inductive FsEntries : Type where
  | nil : FsEntries
  | cons : (name : Path) → (tree : FsTree) → (rest : FsEntries) → FsEntries
end

/-- The `Path::is_dir` test: true for readable and unreadable
directories, false for files (and for a missing root, which the model
represents by a non-directory node). -/
def FsTree.isDir : FsTree → Bool
  | .file _ => false
  | .baddir => true
  | .dir _ => true

/-- The `HashMap<u64, PathBuf>` held by `ArcFiles`, as an association
list (newest binding first). -/
abbrev ArcMap := List (Nat × Path)

/-- The overwrite semantics of `HashMap::insert`: the new binding
shadows any older binding of the same key. -/
def mapInsert (m : ArcMap) (k : Nat) (v : Path) : ArcMap :=
  (k, v) :: m

/-- The lookup semantics of `HashMap::get`: the most recently inserted
binding of the key, if any. -/
def mapGet (m : ArcMap) (k : Nat) : Option Path :=
  match m with
  | [] => none
  | (k₁, v) :: rest => if k₁ = k then some v else mapGet rest k

/-- The `ARC_DIR` constant: "rom:/arc". -/
def ARC_DIR : Path := "rom:/arc".toList

/-- The `UMM_DIR` constant: "sd:/ultimate/mods". -/
def UMM_DIR : Path := "sd:/ultimate/mods".toList

/-- The `.replace(";", ":")` step of `visit_file`, which turns the
on-disk variant-disambiguation character back into the colon the game
uses in logical asset paths. -/
def replaceSemi (s : Path) : Path :=
  s.map (fun c => if c = ';' then ':' else c)

/-- The `game_path` computed by `visit_file`: the on-disk path with the
first `arc_dir_len + 1` characters (the tree root and its trailing
separator) stripped, then `;` replaced by `:`. -/
def game_path_of (p : Path) (arc_dir_len : Nat) : Path :=
  replaceSemi (p.drop (arc_dir_len + 1))

/-- The body of `ArcFiles::visit_file`: hash the logical path and insert
the binding `hash ↦ on-disk path`. -/
def visit_file (h : Path → Nat) (m : ArcMap) (path : Path) (arc_dir_len : Nat) : ArcMap :=
  mapInsert m (h (game_path_of path arc_dir_len)) path

/- The bodies of `ArcFiles::visit_dir` (dispatch on the node kind) and
of its enumeration loop.  A `baddir` makes `fs::read_dir` fail: the
`Err` propagates through `?`, aborting the enclosing loop with the map
accumulated so far; a non-directory root makes `is_dir()` false and the
traversal succeeds with no entries.  Inside the loop, a directory entry
is recursed into (a failure there aborts the loop through `?` as well)
and a file entry goes through `visit_file`. -/
mutual
def visit_dir (h : Path → Nat) (m : ArcMap) (t : FsTree) (dirPath : Path)
    (arc_dir_len : Nat) : ArcMap × Bool :=
  match t with
  | .file _ => (m, true)
  | .baddir => (m, false)
  | .dir es => visit_dir_loop h m es dirPath arc_dir_len

def visit_dir_loop (h : Path → Nat) (m : ArcMap) (es : FsEntries) (dirPath : Path)
    (arc_dir_len : Nat) : ArcMap × Bool :=
  match es with
  | .nil => (m, true)
  | .cons name t rest =>
    let real_path := dirPath ++ '/' :: name
    if t.isDir then
      match visit_dir h m t real_path arc_dir_len with
      | (m₁, true) => visit_dir_loop h m₁ rest dirPath arc_dir_len
      | (m₁, false) => (m₁, false)
    else
      visit_dir_loop h (visit_file h m real_path arc_dir_len) rest dirPath arc_dir_len
end

/- The bodies of `ArcFiles::visit_umm_dirs` and of its enumeration
loop: every immediate subdirectory of the secondary root is traversed as
an independent tree whose root length is the length of its own path
(`real_path.len()`); non-directory entries are skipped; a failing
subtree traversal aborts the loop through `?`. -/
mutual
def visit_umm_dirs (h : Path → Nat) (m : ArcMap) (t : FsTree) (dirPath : Path) :
    ArcMap × Bool :=
  match t with
  | .file _ => (m, true)
  | .baddir => (m, false)
  | .dir es => visit_umm_loop h m es dirPath

def visit_umm_loop (h : Path → Nat) (m : ArcMap) (es : FsEntries) (dirPath : Path) :
    ArcMap × Bool :=
  match es with
  | .nil => (m, true)
  | .cons name t rest =>
    let real_path := dirPath ++ '/' :: name
    if t.isDir then
      match visit_dir h m t real_path real_path.length with
      | (m₁, true) => visit_umm_loop h m₁ rest dirPath
      | (m₁, false) => (m₁, false)
    else
      visit_umm_loop h m rest dirPath
end

/-- The body of `ArcFiles::new`: scan the primary tree rooted at
`ARC_DIR`, then the secondary root at `UMM_DIR`; the `io::Result` of
each whole scan is discarded (`let _ = ...`). -/
def ArcFiles.new (h : Path → Nat) (arcRoot ummRoot : FsTree) : ArcMap :=
  let p := visit_dir h [] arcRoot ARC_DIR ARC_DIR.length
  let q := visit_umm_dirs h p.1 ummRoot UMM_DIR
  q.1

/-- The body of `ArcFiles::get_from_hash`. -/
def ArcFiles.get_from_hash (m : ArcMap) (hash : Nat) : Option Path :=
  mapGet m hash

/-
Interception layer (`src/lib.rs`).

The host structures (`resource.rs`: `LoadedTables`, `Table2Entry`,
`FileState`) are declared outside this repository's sources, so they are
modelled from the spec.  The hooks receive the hash the host derived
from the table index (`get_hash_from_t1_index`) and the table-2 entry
for that index (`get_t2_mut`), rather than the index itself; the host's
original resolution logic (`original!()`) runs first and is external.
Storage at install time is a partial map from path to byte contents,
where `none` models a file that is missing or unreadable so that
`fs::read(path).unwrap()` panics.
-/

/-- Modelled from the spec: the host's table-entry load state machine,
`enum { Unloaded, Loading, Loaded, ... }` (declared in `resource.rs`,
outside these sources). -/
inductive FileState : Type where
  | Unloaded : FileState
  | Loading : FileState
  | Loaded : FileState
deriving DecidableEq, Repr

/-- Modelled from the spec: the host's table-2 entry (`resource.rs`,
outside these sources): a raw data pointer (`none` is the null pointer,
`some bytes` a pointer to those bytes), the load state, the flags word
and the reference count. -/
structure Table2Entry : Type where
  data : Option (List Nat)
  state : FileState
  flags : Nat
  ref_count : Nat
deriving DecidableEq, Repr

/-- Observable events of one hook invocation, used to state where the
critical section of the host's mutex lies. -/
inductive Ev : Type where
  | lockMutex : Ev
  | unlockMutex : Ev
  | fsRead : (path : Path) → Ev
  | writeData : Ev
  | writeState : Ev
  | writeFlags : Ev
deriving DecidableEq, Repr

/-- Outcome of one hook invocation: the table-2 entry after the call
(unchanged when the hook panics or declines to act), whether
`fs::read(path).unwrap()` panicked, and the event trace. -/
structure HookResult : Type where
  entry : Table2Entry
  panicked : Bool
  trace : List Ev
deriving DecidableEq, Repr

/-- The body of the `idk` hook (post-resolve interception point): after
the host's original logic, look the hash up in `ARC_FILES`; on a hit,
return early if the entry is already `Loaded`, otherwise lock the
host's mutex, read the replacement file (panicking on failure while the
mutex is held), install the buffer pointer, mark the state `Loaded`,
set the flags word to 45 and unlock. -/
def idk (arc : ArcMap) (storage : Path → Option (List Nat)) (hash : Nat)
    (entry : Table2Entry) : HookResult :=
  match ArcFiles.get_from_hash arc hash with
  | none => { entry := entry, panicked := false, trace := [] }
  | some path =>
    if entry.state = FileState.Loaded then
      { entry := entry, panicked := false, trace := [] }
    else
      match storage path with
      | none =>
        { entry := entry, panicked := true, trace := [Ev.lockMutex, Ev.fsRead path] }
      | some bytes =>
        { entry := { entry with data := some bytes, state := FileState.Loaded, flags := 45 },
          panicked := false,
          trace := [Ev.lockMutex, Ev.fsRead path, Ev.writeData, Ev.writeState,
                    Ev.writeFlags, Ev.unlockMutex] }

/-- The body of the `add_idx_to_table1_and_table2` hook (table-insert
interception point): identical to `idk` except for the guard — it also
returns early when the state is `Unloaded` but the data pointer is
already non-null — and for the flags constant, 43. -/
def add_idx_to_table1_and_table2 (arc : ArcMap) (storage : Path → Option (List Nat))
    (hash : Nat) (entry : Table2Entry) : HookResult :=
  match ArcFiles.get_from_hash arc hash with
  | none => { entry := entry, panicked := false, trace := [] }
  | some path =>
    if entry.state = FileState.Loaded ∨
        (entry.state = FileState.Unloaded ∧ ¬entry.data = none) then
      { entry := entry, panicked := false, trace := [] }
    else
      match storage path with
      | none =>
        { entry := entry, panicked := true, trace := [Ev.lockMutex, Ev.fsRead path] }
      | some bytes =>
        { entry := { entry with data := some bytes, state := FileState.Loaded, flags := 43 },
          panicked := false,
          trace := [Ev.lockMutex, Ev.fsRead path, Ev.writeData, Ev.writeState,
                    Ev.writeFlags, Ev.unlockMutex] }

/-- Whether an event is a file read. -/
def Ev.isRead : Ev → Bool
  | .fsRead _ => true
  | _ => false

/-- Whether an event is one of the three table-entry field writes. -/
def Ev.isWrite : Ev → Bool
  | .writeData => true
  | .writeState => true
  | .writeFlags => true
  | _ => false

/-- Given the current nesting depth of the mutex, check that every
event selected by `p` happens while the mutex is NOT held. -/
def selectedOutsideMutex (p : Ev → Bool) : List Ev → Nat → Bool
  | [], _ => true
  | Ev.lockMutex :: rest, d => selectedOutsideMutex p rest (d + 1)
  | Ev.unlockMutex :: rest, d => selectedOutsideMutex p rest (d - 1)
  | e :: rest, d => (!p e || d == 0) && selectedOutsideMutex p rest d

/-- Given the current nesting depth of the mutex, check that every
event selected by `p` happens while the mutex IS held. -/
def selectedInsideMutex (p : Ev → Bool) : List Ev → Nat → Bool
  | [], _ => true
  | Ev.lockMutex :: rest, d => selectedInsideMutex p rest (d + 1)
  | Ev.unlockMutex :: rest, d => selectedInsideMutex p rest (d - 1)
  | e :: rest, d => (!p e || decide (0 < d)) && selectedInsideMutex p rest d

/-
Specification devices for the index build: the traversal is
characterized as the in-order list of (hash, path) bindings it inserts,
truncated at the first failing subtree, and the map is the fold of
`mapInsert` over that list.  These functions are not part of the source;
they are proven to agree with `visit_dir`/`visit_umm_dirs` below.
-/

/- In-order bindings produced by `visit_dir` on a tree, with the success
flag of the traversal; the list is truncated at the first failure,
mirroring how `?` aborts the enumeration loop. -/
mutual
def treeKVs (h : Path → Nat) (t : FsTree) (dirPath : Path) (arc_dir_len : Nat) :
    List (Nat × Path) × Bool :=
  match t with
  | .file _ => ([], true)
  | .baddir => ([], false)
  | .dir es => entriesKVs h es dirPath arc_dir_len

def entriesKVs (h : Path → Nat) (es : FsEntries) (dirPath : Path) (arc_dir_len : Nat) :
    List (Nat × Path) × Bool :=
  match es with
  | .nil => ([], true)
  | .cons name t rest =>
    let real_path := dirPath ++ '/' :: name
    if t.isDir then
      match treeKVs h t real_path arc_dir_len with
      | (kvs, true) =>
        let r := entriesKVs h rest dirPath arc_dir_len
        (kvs ++ r.1, r.2)
      | (kvs, false) => (kvs, false)
    else
      let r := entriesKVs h rest dirPath arc_dir_len
      ((h (game_path_of real_path arc_dir_len), real_path) :: r.1, r.2)
end

/-- In-order bindings produced by the `visit_umm_dirs` enumeration loop:
each subdirectory contributes the bindings of its own tree, rooted at
its own path length; non-directory entries contribute nothing; the list
is truncated at the first failing subtree. -/
def ummEntriesKVs (h : Path → Nat) (es : FsEntries) (dirPath : Path) :
    List (Nat × Path) × Bool :=
  match es with
  | .nil => ([], true)
  | .cons name t rest =>
    let real_path := dirPath ++ '/' :: name
    if t.isDir then
      match treeKVs h t real_path real_path.length with
      | (kvs, true) =>
        let r := ummEntriesKVs h rest dirPath
        (kvs ++ r.1, r.2)
      | (kvs, false) => (kvs, false)
    else
      ummEntriesKVs h rest dirPath

/-- In-order bindings produced by `visit_umm_dirs` on the secondary
root, with the success flag of the scan. -/
def ummKVs (h : Path → Nat) (t : FsTree) (dirPath : Path) :
    List (Nat × Path) × Bool :=
  match t with
  | .file _ => ([], true)
  | .baddir => ([], false)
  | .dir es => ummEntriesKVs h es dirPath

/-- Fold a list of bindings into the map, in order. -/
def insertKVs : ArcMap → List (Nat × Path) → ArcMap
  | m, [] => m
  | m, (k, v) :: rest => insertKVs (mapInsert m k v) rest

/-- All bindings inserted by `ArcFiles::new`, in insertion order:
primary scan first, then the secondary scan. -/
def buildKVs (h : Path → Nat) (arcRoot ummRoot : FsTree) : List (Nat × Path) :=
  (treeKVs h arcRoot ARC_DIR ARC_DIR.length).1 ++ (ummKVs h ummRoot UMM_DIR).1

/-- The value of the LAST binding of a key in a binding list, if any:
the last-writer-wins reading of an insertion sequence. -/
def lastVal (k : Nat) : List (Nat × Path) → Option Path
  | [] => none
  | (k₁, v) :: rest =>
    match lastVal k rest with
    | some w => some w
    | none => if k₁ = k then some v else none

/-
Concrete fixtures used by witnesses and counterexamples.
-/

/-- Fixture hash function: fold the character codes in base 256 starting
from 1 (an injective stand-in for the external 64-bit `hash40`). -/
def exHash (s : Path) : Nat :=
  s.foldl (fun a c => a * 256 + c.toNat) 1

/-- Fixture primary tree: a file `a`, and a directory `sub` holding a
file `b;x` (exercising the `;` → `:` translation). -/
def c1arc : FsTree :=
  FsTree.dir (FsEntries.cons "a".toList (FsTree.file [1])
    (FsEntries.cons "sub".toList
      (FsTree.dir (FsEntries.cons "b;x".toList (FsTree.file [2]) FsEntries.nil))
      FsEntries.nil))

/-- Fixture: an empty primary tree. -/
def c6arc : FsTree := FsTree.dir FsEntries.nil

/-- Fixture secondary root: a mod directory `bad` whose enumeration
fails, followed by a mod directory `good` holding a file `f`. -/
def c6umm : FsTree :=
  FsTree.dir (FsEntries.cons "bad".toList FsTree.baddir
    (FsEntries.cons "good".toList
      (FsTree.dir (FsEntries.cons "f".toList (FsTree.file [3]) FsEntries.nil))
      FsEntries.nil))

/-- Fixture primary tree holding a single file `f`. -/
def c7arc : FsTree :=
  FsTree.dir (FsEntries.cons "f".toList (FsTree.file [1]) FsEntries.nil)

/-- Fixture secondary root: one mod directory `m` holding a file `f`
whose logical path collides with the primary tree's `f`. -/
def c7umm : FsTree :=
  FsTree.dir (FsEntries.cons "m".toList
    (FsTree.dir (FsEntries.cons "f".toList (FsTree.file [2]) FsEntries.nil))
    FsEntries.nil)

/-- Fixture: an index with a single override, hash 1 ↦ path "p". -/
def exMap : ArcMap := [(1, ['p'])]

/-- Fixture: storage where every path reads as the single byte 7. -/
def exStorage : Path → Option (List Nat) := fun _ => some [7]

/-- Fixture: storage where every read fails. -/
def exStorageMissing : Path → Option (List Nat) := fun _ => none

/-- Fixture: an unloaded entry with a null data pointer. -/
def exEntryU : Table2Entry :=
  { data := none, state := FileState.Unloaded, flags := 9, ref_count := 2 }

/-- Fixture: a loaded entry. -/
def exEntryL : Table2Entry :=
  { data := some [1], state := FileState.Loaded, flags := 9, ref_count := 2 }

/-- Fixture: an unloaded entry whose data pointer is already non-null. -/
def exEntryUP : Table2Entry :=
  { data := some [1], state := FileState.Unloaded, flags := 9, ref_count := 2 }

/-- C3: for every table entry with state `Unloaded` and a null data
pointer whose hash has an override in the index, invoking either
interception point leaves the entry with state `Loaded`, data pointing
at bytes byte-for-byte identical to the override file's contents, and
the "externally supplied" flags value set (45 at the post-resolve
point, 43 at the table-insert point). -/
theorem c3_install_on_unloaded (arc : ArcMap) (storage : Path → Option (List Nat))
    (hash : Nat) (e : Table2Entry) (path : Path) (bytes : List Nat)
    (hget : ArcFiles.get_from_hash arc hash = some path)
    (hread : storage path = some bytes)
    (hstate : e.state = FileState.Unloaded) (hdata : e.data = none) :
    (idk arc storage hash e).entry =
      { e with data := some bytes, state := FileState.Loaded, flags := 45 } ∧
    (idk arc storage hash e).panicked = false ∧
    (add_idx_to_table1_and_table2 arc storage hash e).entry =
      { e with data := some bytes, state := FileState.Loaded, flags := 43 } ∧
    (add_idx_to_table1_and_table2 arc storage hash e).panicked = false := by
  simp [idk, add_idx_to_table1_and_table2, hget, hread, hstate, hdata]

/-- Witness for C3 at a concrete index, storage and entry. -/
theorem c3_install_on_unloaded_witness :
    (idk exMap exStorage 1 exEntryU).entry =
      { exEntryU with data := some [7], state := FileState.Loaded, flags := 45 } ∧
    (idk exMap exStorage 1 exEntryU).panicked = false ∧
    (add_idx_to_table1_and_table2 exMap exStorage 1 exEntryU).entry =
      { exEntryU with data := some [7], state := FileState.Loaded, flags := 43 } ∧
    (add_idx_to_table1_and_table2 exMap exStorage 1 exEntryU).panicked = false :=
  c3_install_on_unloaded exMap exStorage 1 exEntryU ['p'] [7]
    (by decide) rfl (by decide) (by decide)

/-- C4: for every table entry with state `Loaded`, invoking either
interception point with a hash that has an override present leaves the
entry's fields unchanged; additionally, the table-insert point also
leaves the entry unchanged whenever the state is `Unloaded` and the
data pointer is already non-null. -/
theorem c4_noop_on_loaded (arc : ArcMap) (storage : Path → Option (List Nat))
    (hash : Nat) (path : Path) (e₁ e₂ : Table2Entry)
    (hget : ArcFiles.get_from_hash arc hash = some path)
    (hs₁ : e₁.state = FileState.Loaded)
    (hs₂ : e₂.state = FileState.Unloaded) (hd₂ : ¬e₂.data = none) :
    (idk arc storage hash e₁).entry = e₁ ∧
    (idk arc storage hash e₁).panicked = false ∧
    (add_idx_to_table1_and_table2 arc storage hash e₁).entry = e₁ ∧
    (add_idx_to_table1_and_table2 arc storage hash e₁).panicked = false ∧
    (add_idx_to_table1_and_table2 arc storage hash e₂).entry = e₂ ∧
    (add_idx_to_table1_and_table2 arc storage hash e₂).panicked = false := by
  simp [idk, add_idx_to_table1_and_table2, hget, hs₁, hs₂, hd₂]

/-- Witness for C4 at a concrete index, storage and entries. -/
theorem c4_noop_on_loaded_witness :
    (idk exMap exStorage 1 exEntryL).entry = exEntryL ∧
    (idk exMap exStorage 1 exEntryL).panicked = false ∧
    (add_idx_to_table1_and_table2 exMap exStorage 1 exEntryL).entry = exEntryL ∧
    (add_idx_to_table1_and_table2 exMap exStorage 1 exEntryL).panicked = false ∧
    (add_idx_to_table1_and_table2 exMap exStorage 1 exEntryUP).entry = exEntryUP ∧
    (add_idx_to_table1_and_table2 exMap exStorage 1 exEntryUP).panicked = false :=
  c4_noop_on_loaded exMap exStorage 1 ['p'] exEntryL exEntryUP
    (by decide) (by decide) (by decide) (by decide)

/-- C9: if the replacement file is missing or unreadable at install
time, each interception point fails loudly (the `unwrap` panics) while
leaving the entry exactly as it was, with no write to any of the data,
state or flags fields in the trace. -/
theorem c9_fatal_read_failure (arc : ArcMap) (storage : Path → Option (List Nat))
    (hash : Nat) (path : Path) (e₁ e₂ : Table2Entry)
    (hget : ArcFiles.get_from_hash arc hash = some path)
    (hread : storage path = none)
    (hs₁ : ¬e₁.state = FileState.Loaded)
    (hs₂ : ¬(e₂.state = FileState.Loaded ∨
      (e₂.state = FileState.Unloaded ∧ ¬e₂.data = none))) :
    (idk arc storage hash e₁).panicked = true ∧
    (idk arc storage hash e₁).entry = e₁ ∧
    (idk arc storage hash e₁).trace.filter Ev.isWrite = [] ∧
    (add_idx_to_table1_and_table2 arc storage hash e₂).panicked = true ∧
    (add_idx_to_table1_and_table2 arc storage hash e₂).entry = e₂ ∧
    (add_idx_to_table1_and_table2 arc storage hash e₂).trace.filter Ev.isWrite = [] := by
  simp [idk, add_idx_to_table1_and_table2, hget, hread, hs₁, hs₂, Ev.isWrite]

/-- Witness for C9 at a concrete index, failing storage and entry. -/
theorem c9_fatal_read_failure_witness :
    (idk exMap exStorageMissing 1 exEntryU).panicked = true ∧
    (idk exMap exStorageMissing 1 exEntryU).entry = exEntryU ∧
    (idk exMap exStorageMissing 1 exEntryU).trace.filter Ev.isWrite = [] ∧
    (add_idx_to_table1_and_table2 exMap exStorageMissing 1 exEntryU).panicked = true ∧
    (add_idx_to_table1_and_table2 exMap exStorageMissing 1 exEntryU).entry = exEntryU ∧
    (add_idx_to_table1_and_table2 exMap exStorageMissing 1 exEntryU).trace.filter
      Ev.isWrite = [] :=
  c9_fatal_read_failure exMap exStorageMissing 1 ['p'] exEntryU exEntryU
    (by decide) rfl (by decide) (by decide)

/-- C10: on every successful install, each interception point
overwrites the entire flags field with a fixed constant — 45 at the
post-resolve point and 43 at the table-insert point — regardless of the
flags value the host had stored, and the two constants are distinct. -/
theorem c10_flags_constants (arc : ArcMap) (storage : Path → Option (List Nat))
    (hash : Nat) (path : Path) (bytes : List Nat) (e₁ e₂ : Table2Entry)
    (hget : ArcFiles.get_from_hash arc hash = some path)
    (hread : storage path = some bytes)
    (hs₁ : ¬e₁.state = FileState.Loaded)
    (hs₂ : ¬(e₂.state = FileState.Loaded ∨
      (e₂.state = FileState.Unloaded ∧ ¬e₂.data = none))) :
    (idk arc storage hash e₁).entry.flags = 45 ∧
    (add_idx_to_table1_and_table2 arc storage hash e₂).entry.flags = 43 ∧
    (45 : Nat) ≠ 43 := by
  simp [idk, add_idx_to_table1_and_table2, hget, hread, hs₁, hs₂]

/-- Witness for C10 at a concrete index, storage and entries with a
host-stored flags value of 9. -/
theorem c10_flags_constants_witness :
    (idk exMap exStorage 1 exEntryU).entry.flags = 45 ∧
    (add_idx_to_table1_and_table2 exMap exStorage 1 exEntryU).entry.flags = 43 ∧
    (45 : Nat) ≠ 43 :=
  c10_flags_constants exMap exStorage 1 ['p'] [7] exEntryU exEntryU
    (by decide) rfl (by decide) (by decide)

/-- C5 counterexample: in the concrete execution of the post-resolve
hook on an unloaded entry with an override present, the replacement
file read does NOT happen outside the mutex — the code locks the mutex
before `fs::read` — so the claim that the read always occurs outside
the critical section is false. -/
theorem c5_read_outside_mutex_counterexample :
    selectedOutsideMutex Ev.isRead (idk exMap exStorage 1 exEntryU).trace 0 = false := by
  decide

/-- C5 amended: in every execution of either interception point, both
the replacement-file read and the data/state/flags writes occur while
the host's table mutex is held — the mutex is locked before the read,
not only around the install. -/
theorem c5_read_and_install_inside_mutex (arc : ArcMap)
    (storage : Path → Option (List Nat)) (hash : Nat) (e : Table2Entry) :
    selectedInsideMutex Ev.isRead (idk arc storage hash e).trace 0 = true ∧
    selectedInsideMutex Ev.isWrite (idk arc storage hash e).trace 0 = true ∧
    selectedInsideMutex Ev.isRead
      (add_idx_to_table1_and_table2 arc storage hash e).trace 0 = true ∧
    selectedInsideMutex Ev.isWrite
      (add_idx_to_table1_and_table2 arc storage hash e).trace 0 = true := by
  cases hget : ArcFiles.get_from_hash arc hash with
  | none => simp [idk, add_idx_to_table1_and_table2, hget, selectedInsideMutex]
  | some path =>
    cases hread : storage path with
    | none =>
      by_cases hs₁ : e.state = FileState.Loaded <;>
      by_cases hs₂ : e.state = FileState.Unloaded ∧ ¬e.data = none <;>
      simp [idk, add_idx_to_table1_and_table2, hget, hread, hs₁, hs₂,
        selectedInsideMutex, Ev.isRead, Ev.isWrite]
    | some bytes =>
      by_cases hs₁ : e.state = FileState.Loaded <;>
      by_cases hs₂ : e.state = FileState.Unloaded ∧ ¬e.data = none <;>
      simp [idk, add_idx_to_table1_and_table2, hget, hread, hs₁, hs₂,
        selectedInsideMutex, Ev.isRead, Ev.isWrite]

/-- Folding a concatenation of binding lists folds the first list and
then the second. -/
theorem insertKVs_append (a b : List (Nat × Path)) (m : ArcMap) :
    insertKVs m (a ++ b) = insertKVs (insertKVs m a) b := by
  induction a generalizing m with
  | nil => rfl
  | cons kv rest ih =>
    cases kv
    simp only [List.cons_append, insertKVs]
    exact ih _

/- Agreement between the traversal and its binding-list
characterization, by mutual structural recursion on the tree. -/
mutual
theorem visit_dir_eq (h : Path → Nat) (m : ArcMap) (t : FsTree) (dirPath : Path)
    (len : Nat) :
    visit_dir h m t dirPath len =
      (insertKVs m (treeKVs h t dirPath len).1, (treeKVs h t dirPath len).2) := by
  cases t with
  | file c => rfl
  | baddir => rfl
  | dir es =>
    show visit_dir_loop h m es dirPath len = _
    rw [visit_dir_loop_eq h m es dirPath len]
    rfl

theorem visit_dir_loop_eq (h : Path → Nat) (m : ArcMap) (es : FsEntries)
    (dirPath : Path) (len : Nat) :
    visit_dir_loop h m es dirPath len =
      (insertKVs m (entriesKVs h es dirPath len).1, (entriesKVs h es dirPath len).2) := by
  cases es with
  | nil => rfl
  | cons name t rest =>
    rcases htv : treeKVs h t (dirPath ++ '/' :: name) len with ⟨kvs₁, flag⟩
    cases hdir : t.isDir with
    | true =>
      cases flag with
      | true =>
        simp only [visit_dir_loop, entriesKVs, hdir, if_true,
          visit_dir_eq h m t (dirPath ++ '/' :: name) len, htv]
        rw [visit_dir_loop_eq h (insertKVs m kvs₁) rest dirPath len,
          insertKVs_append]
      | false =>
        simp only [visit_dir_loop, entriesKVs, hdir, if_true,
          visit_dir_eq h m t (dirPath ++ '/' :: name) len, htv]
    | false =>
      simp only [visit_dir_loop, entriesKVs, hdir, Bool.false_eq_true, if_false]
      rw [visit_dir_loop_eq h (visit_file h m (dirPath ++ '/' :: name) len) rest dirPath len]
      rfl
end

/-- Agreement between the `visit_umm_dirs` enumeration loop and its
binding-list characterization. -/
theorem visit_umm_loop_eq (h : Path → Nat) (m : ArcMap) (es : FsEntries)
    (dirPath : Path) :
    visit_umm_loop h m es dirPath =
      (insertKVs m (ummEntriesKVs h es dirPath).1, (ummEntriesKVs h es dirPath).2) := by
  cases es with
  | nil => rfl
  | cons name t rest =>
    rcases htv : treeKVs h t (dirPath ++ '/' :: name)
      (dirPath ++ '/' :: name).length with ⟨kvs₁, flag⟩
    cases hdir : t.isDir with
    | true =>
      cases flag with
      | true =>
        simp only [visit_umm_loop, ummEntriesKVs, hdir, if_true,
          visit_dir_eq h m t (dirPath ++ '/' :: name) (dirPath ++ '/' :: name).length, htv]
        rw [visit_umm_loop_eq h (insertKVs m kvs₁) rest dirPath, insertKVs_append]
      | false =>
        simp only [visit_umm_loop, ummEntriesKVs, hdir, if_true,
          visit_dir_eq h m t (dirPath ++ '/' :: name) (dirPath ++ '/' :: name).length, htv]
    | false =>
      simp only [visit_umm_loop, ummEntriesKVs, hdir, Bool.false_eq_true, if_false]
      exact visit_umm_loop_eq h m rest dirPath

/-- Agreement between `visit_umm_dirs` and its binding-list
characterization. -/
theorem visit_umm_dirs_eq (h : Path → Nat) (m : ArcMap) (t : FsTree) (dirPath : Path) :
    visit_umm_dirs h m t dirPath =
      (insertKVs m (ummKVs h t dirPath).1, (ummKVs h t dirPath).2) := by
  cases t with
  | file c => rfl
  | baddir => rfl
  | dir es => exact visit_umm_loop_eq h m es dirPath

/-- The whole build is the in-order fold of all its bindings. -/
theorem new_eq_insertKVs (h : Path → Nat) (a u : FsTree) :
    ArcFiles.new h a u = insertKVs [] (buildKVs h a u) := by
  simp only [ArcFiles.new, buildKVs, visit_dir_eq, visit_umm_dirs_eq, insertKVs_append]

/-- Lookup in a folded binding list is the last binding of the key, and
otherwise falls back to the original map. -/
theorem mapGet_insertKVs (kvs : List (Nat × Path)) (m : ArcMap) (k : Nat) :
    mapGet (insertKVs m kvs) k = (lastVal k kvs).or (mapGet m k) := by
  induction kvs generalizing m with
  | nil => simp [insertKVs, lastVal]
  | cons kv rest ih =>
    cases kv with
    | mk k₁ v =>
      simp only [insertKVs, lastVal]
      rw [ih]
      cases hl : lastVal k rest with
      | some w => simp [Option.or]
      | none =>
        by_cases hk : k₁ = k <;> simp [mapInsert, mapGet, hk, Option.or]

/-- The last binding of a key in a concatenation prefers the second
list. -/
theorem lastVal_append (k : Nat) (a b : List (Nat × Path)) :
    lastVal k (a ++ b) = (lastVal k b).or (lastVal k a) := by
  induction a with
  | nil => simp [lastVal]
  | cons kv rest ih =>
    cases kv
    simp only [List.cons_append, lastVal, List.append_eq]
    rw [ih]
    cases hb : lastVal k b <;> cases hr : lastVal k rest <;> simp [Option.or]

/-- A last binding is a binding. -/
theorem lastVal_eq_some_mem {k : Nat} {v : Path} {kvs : List (Nat × Path)}
    (hl : lastVal k kvs = some v) : (k, v) ∈ kvs := by
  induction kvs with
  | nil => simp [lastVal] at hl
  | cons kv rest ih =>
    cases kv with
    | mk k₁ w =>
      simp only [lastVal] at hl
      cases hr : lastVal k rest with
      | some u =>
        rw [hr] at hl
        simp only [Option.some.injEq] at hl
        subst hl
        exact List.mem_cons_of_mem _ (ih hr)
      | none =>
        rw [hr] at hl
        by_cases hk : k₁ = k
        · rw [if_pos hk] at hl
          simp only [Option.some.injEq] at hl
          exact hk ▸ hl ▸ List.mem_cons_self _ _
        · rw [if_neg hk] at hl
          exact absurd hl (by simp)

/-- A key that is bound somewhere has a last binding. -/
theorem lastVal_ne_none_of_mem {k : Nat} {v : Path} {kvs : List (Nat × Path)}
    (hm : (k, v) ∈ kvs) : ¬lastVal k kvs = none := by
  induction kvs with
  | nil => simp at hm
  | cons kv rest ih =>
    cases kv with
    | mk k₁ w =>
      simp only [lastVal]
      cases hr : lastVal k rest with
      | some u => simp
      | none =>
        rcases List.mem_cons.mp hm with hhead | htail
        · have : k₁ = k := by
            have := congrArg Prod.fst hhead
            simpa using this.symm
          simp [this]
        · exact absurd hr (ih htail)

/-- When the key values of the binding list determine the path values,
the last binding of a bound key is the key's unique value. -/
theorem lastVal_of_functional {kvs : List (Nat × Path)}
    (hinj : ∀ p ∈ kvs, ∀ q ∈ kvs, p.1 = q.1 → p.2 = q.2)
    {k : Nat} {v : Path} (hm : (k, v) ∈ kvs) : lastVal k kvs = some v := by
  cases hl : lastVal k kvs with
  | none => exact absurd hl (lastVal_ne_none_of_mem hm)
  | some w =>
    have hw := lastVal_eq_some_mem hl
    have := hinj (k, w) hw (k, v) hm rfl
    simp only at this
    rw [this]

/- Shape of the bindings emitted by a primary-style traversal: each key
is the hash of the logical path of its value computed with the root
length the traversal was started with, and each value extends the
directory path by a separator, all by mutual structural recursion. -/
mutual
theorem treeKVs_shape (h : Path → Nat) (t : FsTree) (dirPath : Path) (len : Nat) :
    ∀ kv ∈ (treeKVs h t dirPath len).1,
      kv.1 = h (game_path_of kv.2 len) ∧ ∃ suf, kv.2 = dirPath ++ '/' :: suf := by
  cases t with
  | file c => intro kv hkv; simp [treeKVs] at hkv
  | baddir => intro kv hkv; simp [treeKVs] at hkv
  | dir es => exact entriesKVs_shape h es dirPath len

theorem entriesKVs_shape (h : Path → Nat) (es : FsEntries) (dirPath : Path) (len : Nat) :
    ∀ kv ∈ (entriesKVs h es dirPath len).1,
      kv.1 = h (game_path_of kv.2 len) ∧ ∃ suf, kv.2 = dirPath ++ '/' :: suf := by
  cases es with
  | nil => intro kv hkv; simp [entriesKVs] at hkv
  | cons name t rest =>
    intro kv hkv
    have hsub : ∀ kv₁ ∈ (treeKVs h t (dirPath ++ '/' :: name) len).1,
        kv₁.1 = h (game_path_of kv₁.2 len) ∧ ∃ suf, kv₁.2 = dirPath ++ '/' :: suf := by
      intro kv₁ hkv₁
      rcases treeKVs_shape h t (dirPath ++ '/' :: name) len kv₁ hkv₁ with ⟨hk, suf, hsuf⟩
      refine ⟨hk, name ++ '/' :: suf, ?_⟩
      rw [hsuf, List.append_assoc, List.cons_append]
    rcases htv : treeKVs h t (dirPath ++ '/' :: name) len with ⟨kvs₁, flag⟩
    cases hdir : t.isDir with
    | true =>
      cases flag with
      | true =>
        simp only [entriesKVs, hdir, if_true, htv] at hkv
        rcases List.mem_append.mp hkv with h₁ | h₂
        · exact hsub kv (htv ▸ h₁)
        · exact entriesKVs_shape h rest dirPath len kv h₂
      | false =>
        simp only [entriesKVs, hdir, if_true, htv] at hkv
        exact hsub kv (htv ▸ hkv)
    | false =>
      simp only [entriesKVs, hdir, Bool.false_eq_true, if_false, List.mem_cons] at hkv
      rcases hkv with hhead | htail
      · rw [hhead]
        exact ⟨rfl, name, rfl⟩
      · exact entriesKVs_shape h rest dirPath len kv htail
end

/-- Shape of the bindings emitted by the secondary scan: every binding
comes from some subdirectory `name` of the secondary root, its value
extends that subdirectory's path, and its key is the hash of the
logical path computed with that subdirectory's own path length. -/
theorem ummEntriesKVs_shape (h : Path → Nat) (es : FsEntries) (dirPath : Path) :
    ∀ kv ∈ (ummEntriesKVs h es dirPath).1,
      ∃ name suf, kv.2 = (dirPath ++ '/' :: name) ++ '/' :: suf ∧
        kv.1 = h (game_path_of kv.2 (dirPath ++ '/' :: name).length) := by
  cases es with
  | nil => intro kv hkv; simp [ummEntriesKVs] at hkv
  | cons name t rest =>
    intro kv hkv
    have hsub : ∀ kv₁ ∈ (treeKVs h t (dirPath ++ '/' :: name)
        (dirPath ++ '/' :: name).length).1,
        ∃ nm suf, kv₁.2 = (dirPath ++ '/' :: nm) ++ '/' :: suf ∧
          kv₁.1 = h (game_path_of kv₁.2 (dirPath ++ '/' :: nm).length) := by
      intro kv₁ hkv₁
      rcases treeKVs_shape h t (dirPath ++ '/' :: name)
        (dirPath ++ '/' :: name).length kv₁ hkv₁ with ⟨hk, suf, hsuf⟩
      exact ⟨name, suf, hsuf, hk⟩
    rcases htv : treeKVs h t (dirPath ++ '/' :: name)
      (dirPath ++ '/' :: name).length with ⟨kvs₁, flag⟩
    cases hdir : t.isDir with
    | true =>
      cases flag with
      | true =>
        simp only [ummEntriesKVs, hdir, if_true, htv] at hkv
        rcases List.mem_append.mp hkv with h₁ | h₂
        · exact hsub kv (htv ▸ h₁)
        · exact ummEntriesKVs_shape h rest dirPath kv h₂
      | false =>
        simp only [ummEntriesKVs, hdir, if_true, htv] at hkv
        exact hsub kv (htv ▸ hkv)
    | false =>
      simp only [ummEntriesKVs, hdir, Bool.false_eq_true, if_false] at hkv
      exact ummEntriesKVs_shape h rest dirPath kv hkv

/-- Dropping the root and its separator from an extended path leaves
the relative path. -/
theorem drop_root (root rel : Path) :
    (root ++ '/' :: rel).drop (root.length + 1) = rel := by
  induction root with
  | nil => rfl
  | cons c cs ih => exact ih

/-- The logical path of a file under a root, computed with the root's
length, is the relative path with `;` translated to `:`. -/
theorem game_path_of_append (root rel : Path) :
    game_path_of (root ++ '/' :: rel) root.length = replaceSemi rel := by
  simp [game_path_of, drop_root]

/-- C1: for every file discovered under the primary tree during the
build, looking up the hash of that file's logical asset path (its path
relative to the primary root with `;` translated to `:`) in an index
built from the primary tree alone returns that file's on-disk location.
The hypothesis says the hash does not collide on the logical paths of
the discovered files (the spec's compatibility requirement on
PathHasher); the secondary root is a non-directory, so the secondary
scan contributes nothing. -/
theorem c1_primary_lookup_roundtrip (h : Path → Nat) (arc : FsTree)
    (hinj : ∀ p ∈ (treeKVs h arc ARC_DIR ARC_DIR.length).1,
      ∀ q ∈ (treeKVs h arc ARC_DIR ARC_DIR.length).1, p.1 = q.1 → p.2 = q.2)
    (f : Path)
    (hmem : f ∈ ((treeKVs h arc ARC_DIR ARC_DIR.length).1).map Prod.snd) :
    ArcFiles.get_from_hash (ArcFiles.new h arc (FsTree.file []))
      (h (game_path_of f ARC_DIR.length)) = some f := by
  rcases List.mem_map.mp hmem with ⟨⟨k, v⟩, hkv, hv⟩
  simp only at hv
  subst hv
  have hk := (treeKVs_shape h arc ARC_DIR ARC_DIR.length (k, v) hkv).1
  simp only at hk
  have hbuild : buildKVs h arc (FsTree.file []) =
      (treeKVs h arc ARC_DIR ARC_DIR.length).1 := by
    simp [buildKVs, ummKVs]
  have hlast : lastVal k (treeKVs h arc ARC_DIR ARC_DIR.length).1 = some v :=
    lastVal_of_functional hinj hkv
  simp only [ArcFiles.get_from_hash, new_eq_insertKVs, mapGet_insertKVs, hbuild, ← hk,
    hlast, Option.or]

/-- Witness for C1 on a concrete primary tree containing
`rom:/arc/sub/b;x`, with an injective fixture hash. -/
theorem c1_primary_lookup_roundtrip_witness :
    ArcFiles.get_from_hash (ArcFiles.new exHash c1arc (FsTree.file []))
      (exHash (game_path_of "rom:/arc/sub/b;x".toList ARC_DIR.length)) =
      some "rom:/arc/sub/b;x".toList :=
  c1_primary_lookup_roundtrip exHash c1arc (by decide) "rom:/arc/sub/b;x".toList
    (by decide)

/-- C2: index construction is last-writer-wins — the final lookup
result for any hash is the value of the last binding inserted for it
during the build (primary scan first, then the secondary subdirectories
in enumeration order), or a miss when the hash was never inserted.  In
particular a secondary binding overwrites a colliding primary binding,
and a later-enumerated secondary subdirectory overwrites an earlier
one. -/
theorem c2_last_writer_wins (h : Path → Nat) (a u : FsTree) (k : Nat) :
    ArcFiles.get_from_hash (ArcFiles.new h a u) k = lastVal k (buildKVs h a u) := by
  simp only [ArcFiles.get_from_hash, new_eq_insertKVs, mapGet_insertKVs]
  cases lastVal k (buildKVs h a u) <;> simp [mapGet, Option.or]

/-- C6 counterexample: in a concrete secondary root where the mod
directory `bad` fails to enumerate and is followed by the readable mod
directory `good` containing the file `f`, the build misses the hash of
`good`'s file — the sibling subtree enumerated after the failing one is
never scanned, contradicting the claim that such a failure does not
prevent other subtrees from contributing. -/
theorem c6_sibling_after_failure_counterexample :
    ArcFiles.get_from_hash (ArcFiles.new exHash c6arc c6umm) (exHash "f".toList) =
      none := by
  decide

/-- C6 amended: a traversal failure is swallowed only at the top level
of the build: the primary scan's bindings (truncated at its first
failure) are inserted, and then — whether or not the primary scan
failed — the secondary scan's bindings (likewise truncated at the first
failing subtree, so that sibling subdirectories enumerated after a
failure contribute zero entries) are inserted. -/
theorem c6_failure_swallowed_at_top_level (h : Path → Nat) (a u : FsTree) :
    ArcFiles.new h a u =
      insertKVs (insertKVs [] (treeKVs h a ARC_DIR ARC_DIR.length).1)
        (ummKVs h u UMM_DIR).1 := by
  simp only [ArcFiles.new, visit_dir_eq, visit_umm_dirs_eq]

/-- C7 counterexample: the build takes no preset input at all, and a
secondary subdirectory that no preset has enabled still contributes: in
the concrete trees where the primary file `f` collides with `m/f` under
the secondary root, lookup returns the secondary location and not the
primary one, contradicting the claim that a disabled secondary
subdirectory contributes no entries. -/
theorem c7_no_preset_filtering_counterexample :
    ArcFiles.get_from_hash (ArcFiles.new exHash c7arc c7umm) (exHash "f".toList) =
      some "sd:/ultimate/mods/m/f".toList ∧
    ¬ArcFiles.get_from_hash (ArcFiles.new exHash c7arc c7umm) (exHash "f".toList) =
      some "rom:/arc/f".toList := by
  decide

/-- C7 amended: `ArcFiles::new` consumes no preset and unconditionally
indexes every subdirectory discovered under the secondary root;
whenever the secondary scan contributes a (last) binding for a hash,
the final lookup resolves to that secondary location regardless of the
primary tree — the primary path can win only when the secondary scan
contributes no binding for the hash. -/
theorem c7_secondary_contributes_unconditionally (h : Path → Nat) (a u : FsTree)
    (k : Nat) (v : Path) (hum : lastVal k (ummKVs h u UMM_DIR).1 = some v) :
    ArcFiles.get_from_hash (ArcFiles.new h a u) k = some v := by
  simp only [ArcFiles.get_from_hash, new_eq_insertKVs, mapGet_insertKVs, buildKVs,
    lastVal_append, hum, Option.or]

/-- Witness for the amended C7 on the concrete colliding trees. -/
theorem c7_secondary_contributes_unconditionally_witness :
    ArcFiles.get_from_hash (ArcFiles.new exHash c7arc c7umm) (exHash "f".toList) =
      some "sd:/ultimate/mods/m/f".toList :=
  c7_secondary_contributes_unconditionally exHash c7arc c7umm (exHash "f".toList)
    "sd:/ultimate/mods/m/f".toList (by decide)

/-- C8: every binding of the built index keys the on-disk location by
the hash of the file's path relative to its tree's root — the location
is `root ++ "/" ++ rel` with the root either the primary root or a
secondary subdirectory, and the key is the hash of `rel` with every `;`
replaced by `:`. -/
theorem c8_keys_hash_relative_paths (h : Path → Nat) (a u : FsTree) (k : Nat) (v : Path)
    (hget : ArcFiles.get_from_hash (ArcFiles.new h a u) k = some v) :
    ∃ root rel, v = root ++ '/' :: rel ∧ k = h (replaceSemi rel) ∧
      (root = ARC_DIR ∨ ∃ name, root = UMM_DIR ++ '/' :: name) := by
  simp only [ArcFiles.get_from_hash, new_eq_insertKVs, mapGet_insertKVs, mapGet,
    Option.or_none] at hget
  have hmem : (k, v) ∈ buildKVs h a u := lastVal_eq_some_mem hget
  rcases List.mem_append.mp hmem with harc | hum
  · rcases treeKVs_shape h a ARC_DIR ARC_DIR.length (k, v) harc with ⟨hk, suf, hsuf⟩
    simp only at hk hsuf
    refine ⟨ARC_DIR, suf, hsuf, ?_, Or.inl rfl⟩
    rw [hk, hsuf, game_path_of_append]
  · have hum₁ : (k, v) ∈ (ummKVs h u UMM_DIR).1 := hum
    have hshape : ∀ kv ∈ (ummKVs h u UMM_DIR).1,
        ∃ name suf, kv.2 = (UMM_DIR ++ '/' :: name) ++ '/' :: suf ∧
          kv.1 = h (game_path_of kv.2 (UMM_DIR ++ '/' :: name).length) := by
      cases u with
      | file c => intro kv hkv; simp [ummKVs] at hkv
      | baddir => intro kv hkv; simp [ummKVs] at hkv
      | dir es => exact ummEntriesKVs_shape h es UMM_DIR
    rcases hshape (k, v) hum₁ with ⟨name, suf, hsuf, hk⟩
    simp only at hk hsuf
    refine ⟨UMM_DIR ++ '/' :: name, suf, hsuf, ?_, Or.inr ⟨name, rfl⟩⟩
    rw [hk, hsuf, game_path_of_append]

/-- Witness for C8 on the concrete two-tree build: the binding found
for the hash of `f` decomposes into a root and a relative path. -/
theorem c8_keys_hash_relative_paths_witness :
    ∃ root rel, "sd:/ultimate/mods/m/f".toList = root ++ '/' :: rel ∧
      exHash "f".toList = exHash (replaceSemi rel) ∧
      (root = ARC_DIR ∨ ∃ name, root = UMM_DIR ++ '/' :: name) :=
  c8_keys_hash_relative_paths exHash c7arc c7umm (exHash "f".toList)
    "sd:/ultimate/mods/m/f".toList (by decide)

end Arcropolis
